import Mathlib

/-!
UART request handler: a shallow embedding of `uart_serial_connection.c`.

The firmware keeps a global array `number_array` of `ARRAY_SIZE` C `int`s together with
a counter `array_length`.  Every chunk of bytes that arrives on the serial port makes
`echo_task` call `handle_request` once; `handle_request` answers with the first number of
the array and shifts the others one slot to the left, or answers with `ERROR_MESSAGE` when
the counter is not positive.

Modelling choices.

* C `int` values are mathematical integers (`Int`) that lie between `INT_MIN` and `INT_MAX`.
  The only arithmetic the code performs is `++i` under the guard `i < array_length` and
  `array_length--` under the guard `array_length > 0`; neither can leave the `int` range,
  so no wrap-around is modelled.
* The backing array is a list; an access with an index outside the list is the C undefined
  behaviour and is reported as `Fault.out_of_bounds`.
* The `for` loop is run with fuel; running out of fuel is reported as `Fault.out_of_fuel`,
  and `handle_request` supplies `array_length` units of fuel.
* Every array access that is performed is recorded, in program order, in a list of `Access`.
* The bytes handed to `uart_write_bytes` are the characters of `response` up to its
  terminating NUL, i.e. the `String` held by the model.
-/

namespace UartSerial

/-! ## Constants of the translation unit -/

/-- `#define BUF_SIZE (1024)`. -/
def BUF_SIZE : Nat := 1024

/-- `#define ARRAY_SIZE 10`. -/
def ARRAY_SIZE : Nat := 10

/-- `#define ERROR_MESSAGE "Error: Array is empty"`. -/
def ERROR_MESSAGE : String := "Error: Array is empty"

/-- Smallest value of a 32-bit C `int`. -/
def INT_MIN : Int := -2147483648

/-- Largest value of a 32-bit C `int`. -/
def INT_MAX : Int := 2147483647

/-! ## Data model -/

/-- Ways in which the C program can leave its defined behaviour (or the model its fuel). -/
inductive Fault where
  | out_of_bounds
  | out_of_fuel
deriving DecidableEq, Repr

/-- One access to `number_array`, with the index used. -/
inductive Access where
  | read (i : Int)
  | write (i : Int)
deriving DecidableEq, Repr

instance {ε α : Type} [DecidableEq ε] [DecidableEq α] : DecidableEq (Except ε α)
  | .ok a, .ok b =>
    if h : a = b then isTrue (by rw [h]) else isFalse (fun h1 => h (Except.ok.inj h1))
  | .error a, .error b =>
    if h : a = b then isTrue (by rw [h]) else isFalse (fun h1 => h (Except.error.inj h1))
  | .ok _, .error _ => isFalse (fun h => Except.noConfusion h)
  | .error _, .ok _ => isFalse (fun h => Except.noConfusion h)

/-- The two globals `number_array` and `array_length`. -/
structure State where
  number_array : List Int
  array_length : Int
deriving DecidableEq, Repr

/-- What one call of `handle_request` leaves behind: the globals, the text passed to
`uart_write_bytes`, and the accesses to `number_array` it made. -/
structure Outcome where
  state : State
  response : String
  accesses : List Access
deriving DecidableEq, Repr

/-- The globals as initialised at lines 48-49:
`number_array = {1, ..., 10}` and `array_length = ARRAY_SIZE`. -/
def initial_state : State :=
  { number_array := [1, 2, 3, 4, 5, 6, 7, 8, 9, 10], array_length := (ARRAY_SIZE : Int) }

/-- A value fits a C `int`. -/
def is_int (v : Int) : Prop := INT_MIN ≤ v ∧ v ≤ INT_MAX

instance (v : Int) : Decidable (is_int v) := by unfold is_int; infer_instance

/-- The state is one the C globals can hold: the array has `ARRAY_SIZE` slots and every
slot is an `int`. -/
def State.well_typed (s : State) : Prop :=
  s.number_array.length = ARRAY_SIZE ∧ ∀ v ∈ s.number_array, is_int v

instance (s : State) : Decidable s.well_typed := by unfold State.well_typed; infer_instance

/-- The data-model invariant: `0 <= array_length <= ARRAY_SIZE`. -/
def State.length_ok (s : State) : Prop :=
  0 ≤ s.array_length ∧ s.array_length ≤ (ARRAY_SIZE : Int)

instance (s : State) : Decidable s.length_ok := by unfold State.length_ok; infer_instance

/-! ## C library routines used by the handler -/

/-- Decimal text of an integer as `%d` prints it: an optional minus sign and the digits of
the magnitude. -/
def format_d (v : Int) : String :=
  if v < 0 then "-" ++ Nat.repr v.natAbs else Nat.repr v.natAbs

/-- The call `snprintf(response, size, "Number: %d", v)`: the formatted text, cut to at
most `size - 1` characters (the last byte is kept for the NUL). -/
def snprintf_number (size : Nat) (v : Int) : String :=
  String.mk (("Number: " ++ format_d v).data.take (size - 1))

/-- The call `strncpy(response, src, n)` followed by reading `response` as a C string: at
most `n` characters of `src`. -/
def strncpy (src : String) (n : Nat) : String :=
  String.mk (src.data.take n)

/-! ## Array accesses -/

/-- The read `number_array[i]`. -/
def array_read (a : List Int) (i : Int) : Except Fault Int :=
  if i < 0 then .error .out_of_bounds
  else match a[i.toNat]? with
    | some v => .ok v
    | none => .error .out_of_bounds

/-- The write `number_array[i] = v`. -/
def array_write (a : List Int) (i : Int) (v : Int) : Except Fault (List Int) :=
  if i < 0 then .error .out_of_bounds
  else if i.toNat < a.length then .ok (a.set i.toNat v)
  else .error .out_of_bounds

/-! ## The handler -/

/-- The loop `for (int i = 1; i < array_length; ++i) number_array[i - 1] = number_array[i];`
entered with the current value of `i`, the array, and the accesses made so far. -/
def shift_loop (array_length : Int) :
    Nat → Int → List Int → List Access → Except Fault (List Int × List Access)
  | 0, i, a, tr =>
    if i < array_length then .error .out_of_fuel else .ok (a, tr)
  | fuel + 1, i, a, tr =>
    if i < array_length then
      match array_read a i with
      | .error e => .error e
      | .ok v =>
        match array_write a (i - 1) v with
        | .error e => .error e
        | .ok a1 =>
          shift_loop array_length fuel (i + 1) a1 (tr ++ [Access.read i, Access.write (i - 1)])
    else .ok (a, tr)

/-- The function `handle_request`, lines 51-72. -/
def handle_request (s : State) : Except Fault Outcome :=
  if s.array_length > 0 then
    match array_read s.number_array 0 with
    | .error e => .error e
    | .ok v =>
      let response := snprintf_number BUF_SIZE v
      match shift_loop s.array_length s.array_length.toNat 1 s.number_array [Access.read 0] with
      | .error e => .error e
      | .ok (a, tr) =>
        .ok { state := { number_array := a, array_length := s.array_length - 1 },
              response := response, accesses := tr }
  else
    .ok { state := s, response := strncpy ERROR_MESSAGE BUF_SIZE, accesses := [] }

/-! ## The polling loop -/

/-- What `uart_read_bytes` hands back: its return value and the bytes it stored in `data`. -/
structure ReadResult where
  len : Int
  data : List Nat
deriving DecidableEq, Repr

/-- One turn of the `while (1)` loop of `echo_task`, lines 96-103, given what the read
returned.  The result is the next state and the texts transmitted during the turn, one per
call of `handle_request`. -/
def echo_task_iteration (s : State) (r : ReadResult) : Except Fault (State × List String) :=
  if r.len > 0 then
    match handle_request s with
    | .error e => .error e
    | .ok o => .ok (o.state, [o.response])
  else .ok (s, [])

/-- Several trigger events in a row: `handle_request` called `m` times, with the responses
in the order they were sent. -/
def run_requests : Nat → State → Except Fault (State × List String)
  | 0, s => .ok (s, [])
  | m + 1, s =>
    match handle_request s with
    | .error e => .error e
    | .ok o =>
      match run_requests m o.state with
      | .error e => .error e
      | .ok (s1, rs) => .ok (s1, o.response :: rs)

/-- The text `"Number: v"`. -/
def number_response (v : Int) : String := "Number: " ++ format_d v

/-- The response is a `"Number: ..."` response. -/
def is_number_response (r : String) : Bool := "Number: ".data.isPrefixOf r.data

/-! ## Specification-side helpers -/

/-- Index used by an access. -/
def Access.index : Access → Int
  | .read i => i
  | .write i => i

/-- The access is a write. -/
def Access.is_write : Access → Bool
  | .read _ => false
  | .write _ => true

/-- The state in which the ten preloaded numbers have all been handed out: every slot holds
the stale value 10 and the counter is zero. -/
def exhausted_state : State :=
  { number_array := [10, 10, 10, 10, 10, 10, 10, 10, 10, 10], array_length := 0 }

/-- The ten responses that hand out the preloaded numbers, in order. -/
def preloaded_responses : List String :=
  ["Number: 1", "Number: 2", "Number: 3", "Number: 4", "Number: 5",
    "Number: 6", "Number: 7", "Number: 8", "Number: 9", "Number: 10"]

/-- Accesses made by `n` turns of the shift loop that start at index `i`. -/
def shift_accesses : Nat → Int → List Access
  | 0, _ => []
  | n + 1, i => Access.read i :: Access.write (i - 1) :: shift_accesses n (i + 1)

/-! ## Lemmas on the C library routines -/

theorem format_d_length (v : Int) (hv : is_int v) : (format_d v).length ≤ 11 := by
  unfold is_int INT_MIN INT_MAX at hv
  unfold format_d
  have h : (Nat.repr v.natAbs).length ≤ 10 := Nat.repr_length _ _ (by norm_num) (by omega)
  split
  · have h1 : "-".length = 1 := rfl
    rw [String.length_append]; omega
  · omega

theorem snprintf_number_eq (v : Int) (hv : is_int v) :
    snprintf_number BUF_SIZE v = number_response v := by
  have h := format_d_length v hv
  unfold snprintf_number number_response BUF_SIZE
  have h1 : ("Number: " ++ format_d v).data.length ≤ 1024 - 1 := by
    have h2 : "Number: ".length = 8 := rfl
    have h3 : ("Number: " ++ format_d v).length = "Number: ".length + (format_d v).length :=
      String.length_append "Number: " (format_d v)
    have h4 : ("Number: " ++ format_d v).data.length = ("Number: " ++ format_d v).length := rfl
    omega
  rw [List.take_of_length_le h1]

theorem strncpy_error_message : strncpy ERROR_MESSAGE BUF_SIZE = ERROR_MESSAGE := by decide

/-! ## Lemmas on the array accesses -/

theorem array_read_ok (a : List Int) (i : Int) (v : Int) (h0 : 0 ≤ i)
    (h : a[i.toNat]? = some v) : array_read a i = .ok v := by
  unfold array_read
  rw [if_neg (by omega), h]

theorem array_write_ok (a : List Int) (i : Int) (v : Int) (h0 : 0 ≤ i)
    (h : i.toNat < a.length) : array_write a i v = .ok (a.set i.toNat v) := by
  unfold array_write
  rw [if_neg (by omega), if_pos h]

/-! ## The shift loop -/

theorem shift_loop_spec (len : Int) :
    ∀ (fuel : Nat) (i : Int) (a : List Int) (tr : List Access),
      1 ≤ i → i ≤ len → len ≤ (a.length : Int) → (len - i).toNat ≤ fuel →
      ∃ a1, shift_loop len fuel i a tr = .ok (a1, tr ++ shift_accesses (len - i).toNat i)
        ∧ a1.length = a.length
        ∧ ∀ j : Nat, a1[j]? = if i - 1 ≤ (j : Int) ∧ (j : Int) + 1 < len then a[j + 1]? else a[j]? := by
  intro fuel
  induction fuel with
  | zero =>
    intro i a tr h1 h2 _ h4
    have hi : i = len := by omega
    subst hi
    refine ⟨a, ?_, rfl, ?_⟩
    · simp [shift_loop, shift_accesses]
    · intro j
      rw [if_neg (by omega)]
  | succ fuel ih =>
    intro i a tr h1 h2 h3 h4
    by_cases hlt : i < len
    · have hil : i.toNat < a.length := by omega
      obtain ⟨a2, e2, l2, p2⟩ := ih (i + 1) (a.set (i - 1).toNat (a.get ⟨i.toNat, hil⟩))
        (tr ++ [Access.read i, Access.write (i - 1)]) (by omega) (by omega)
        (by rw [List.length_set]; exact h3) (by omega)
      refine ⟨a2, ?_, ?_, ?_⟩
      · have hn : (len - i).toNat = (len - (i + 1)).toNat + 1 := by omega
        rw [hn]
        simp only [shift_loop, if_pos hlt, shift_accesses]
        rw [array_read_ok a i (a.get ⟨i.toNat, hil⟩) (by omega) (by simp [List.getElem?_eq_getElem hil])]
        simp only []
        rw [array_write_ok a (i - 1) _ (by omega) (by omega)]
        simp only []
        rw [e2]
        simp
      · rw [l2, List.length_set]
      · intro j
        rw [p2 j]
        by_cases hj : i ≤ (j : Int)
        · by_cases hj2 : (j : Int) + 1 < len
          · rw [if_pos ⟨by omega, hj2⟩, if_pos ⟨by omega, hj2⟩]
            rw [List.getElem?_set_ne (by omega)]
          · rw [if_neg (by omega), if_neg (by omega)]
            rw [List.getElem?_set_ne (by omega)]
        · rw [if_neg (by omega)]
          by_cases hj3 : (j : Int) = i - 1
          · have hj4 : j = (i - 1).toNat := by omega
            rw [if_pos ⟨by omega, by omega⟩]
            subst hj4
            rw [List.getElem?_set_self (by omega)]
            have hj5 : (i - 1).toNat + 1 = i.toNat := by omega
            rw [hj5, List.getElem?_eq_getElem hil]
            rfl
          · rw [if_neg (by omega)]
            rw [List.getElem?_set_ne (by omega)]
    · have hi : i = len := by omega
      subst hi
      refine ⟨a, ?_, rfl, ?_⟩
      · simp [shift_loop, shift_accesses]
      · intro j
        rw [if_neg (by omega)]

/-! ## One call of the handler -/

theorem handle_request_empty (s : State) (h : s.array_length ≤ 0) :
    handle_request s = .ok { state := s, response := ERROR_MESSAGE, accesses := [] } := by
  unfold handle_request
  rw [if_neg (by omega), strncpy_error_message]

theorem handle_request_pos (s : State) (hpos : 0 < s.array_length)
    (hle : s.array_length ≤ (s.number_array.length : Int)) :
    ∃ v a1, s.number_array[0]? = some v
      ∧ handle_request s = .ok
          { state := { number_array := a1, array_length := s.array_length - 1 },
            response := snprintf_number BUF_SIZE v,
            accesses := Access.read 0 :: shift_accesses (s.array_length - 1).toNat 1 }
      ∧ a1.length = s.number_array.length
      ∧ ∀ j : Nat, a1[j]? =
          if (j : Int) + 1 < s.array_length then s.number_array[j + 1]? else s.number_array[j]? := by
  have h0 : 0 < s.number_array.length := by omega
  obtain ⟨a1, e1, l1, p1⟩ := shift_loop_spec s.array_length s.array_length.toNat 1
    s.number_array [Access.read 0] (by omega) (by omega) hle (by omega)
  refine ⟨s.number_array.get ⟨0, h0⟩, a1, by simp [List.getElem?_eq_getElem h0], ?_, l1, ?_⟩
  · unfold handle_request
    rw [if_pos hpos, array_read_ok s.number_array 0 (s.number_array.get ⟨0, h0⟩) (by omega)
      (by simp [List.getElem?_eq_getElem h0])]
    simp only []
    rw [e1]
    rfl
  · intro j
    rw [p1 j]
    by_cases hj : (j : Int) + 1 < s.array_length
    · rw [if_pos ⟨by omega, hj⟩, if_pos hj]
    · rw [if_neg (by omega), if_neg hj]

theorem shifted_take (a a1 : List Int) (n : Nat)
    (hp : ∀ j : Nat, a1[j]? = if j + 1 < n + 1 then a[j + 1]? else a[j]?) :
    a1.take n = (a.take (n + 1)).tail := by
  apply List.ext_getElem?
  intro j
  rw [List.getElem?_take, List.getElem?_tail, List.getElem?_take, hp j]
  by_cases hj : j < n
  · rw [if_pos hj, if_pos (by omega), if_pos (by omega)]
  · rw [if_neg hj, if_neg (by omega)]

theorem shift_accesses_index :
    ∀ (n : Nat) (i : Int) (acc : Access), acc ∈ shift_accesses n i →
      i - 1 ≤ acc.index ∧ acc.index < i + n ∧ (acc.is_write = true → acc.index < i + n - 1) := by
  intro n
  induction n with
  | zero => intro i acc h; simp [shift_accesses] at h
  | succ n ih =>
    intro i acc h
    simp only [shift_accesses, List.mem_cons] at h
    rcases h with h | h | h
    · subst h
      simp [Access.index, Access.is_write]
    · subst h
      simp [Access.index, Access.is_write]
      omega
    · obtain ⟨h1, h2, h3⟩ := ih (i + 1) acc h
      refine ⟨by omega, by push_cast; omega, fun hw => ?_⟩
      have := h3 hw
      push_cast
      omega

theorem is_number_response_snprintf (v : Int) :
    is_number_response (snprintf_number BUF_SIZE v) = true := by
  unfold is_number_response snprintf_number BUF_SIZE
  have h : ("Number: " ++ format_d v).data = "Number: ".data ++ (format_d v).data := rfl
  rw [h]
  simp [List.take, List.isPrefixOf]

theorem is_number_response_error : is_number_response ERROR_MESSAGE = false := by decide

theorem handle_request_ok_pos (s : State) (o : Outcome) (hpos : 0 < s.array_length)
    (h : handle_request s = .ok o) :
    o.state.array_length = s.array_length - 1
      ∧ ∃ v, o.response = snprintf_number BUF_SIZE v := by
  unfold handle_request at h
  rw [if_pos hpos] at h
  cases hr : array_read s.number_array 0 with
  | error e => rw [hr] at h; simp at h
  | ok v =>
    rw [hr] at h
    simp only [] at h
    cases hl : shift_loop s.array_length s.array_length.toNat 1 s.number_array
        [Access.read 0] with
    | error e => rw [hl] at h; simp at h
    | ok p =>
      rw [hl] at h
      simp only [Except.ok.injEq] at h
      subst h
      exact ⟨rfl, v, rfl⟩

theorem handle_request_total (s : State) (hlen : s.number_array.length = ARRAY_SIZE)
    (hok : s.length_ok) : ∃ o, handle_request s = .ok o := by
  obtain ⟨h0, h1⟩ := hok
  by_cases hz : s.array_length ≤ 0
  · exact ⟨_, handle_request_empty s hz⟩
  · obtain ⟨v, a1, _, e1, _, _⟩ := handle_request_pos s (by omega) (by omega)
    exact ⟨_, e1⟩

/-! ## Several calls in a row -/

theorem run_requests_empty (s : State) (h : s.array_length ≤ 0) :
    ∀ m : Nat, run_requests m s = .ok (s, List.replicate m ERROR_MESSAGE) := by
  intro m
  induction m with
  | zero => rfl
  | succ m ih =>
    simp only [run_requests, handle_request_empty s h, ih, List.replicate_succ]

theorem run_requests_add (m k : Nat) :
    ∀ (s st : State) (rs : List String), run_requests m s = .ok (st, rs) →
      run_requests (m + k) s =
        match run_requests k st with
        | .error e => .error e
        | .ok (st1, rs1) => .ok (st1, rs ++ rs1) := by
  induction m with
  | zero =>
    intro s st rs h
    simp only [run_requests, Except.ok.injEq, Prod.mk.injEq] at h
    obtain ⟨h1, h2⟩ := h
    subst h1 h2
    rw [Nat.zero_add]
    cases run_requests k s with
    | error e => rfl
    | ok p => rfl
  | succ m ih =>
    intro s st rs h
    have hk : m + 1 + k = (m + k) + 1 := by omega
    rw [hk]
    simp only [run_requests] at h ⊢
    cases ho : handle_request s with
    | error e => rw [ho] at h; simp at h
    | ok o =>
      rw [ho] at h
      simp only [] at h ⊢
      cases hr : run_requests m o.state with
      | error e => rw [hr] at h; simp at h
      | ok p =>
        rw [hr] at h
        simp only [Except.ok.injEq, Prod.mk.injEq] at h
        obtain ⟨h1, h2⟩ := h
        rw [ih o.state p.1 p.2 hr, h1]
        cases run_requests k st with
        | error e => rfl
        | ok q => simp [← h2]

theorem run_requests_spec :
    ∀ (m n : Nat) (s : State), s.array_length = (n : Int) → n ≤ s.number_array.length →
      ∃ st, run_requests m s = .ok (st,
          ((s.number_array.take n).take m).map (snprintf_number BUF_SIZE)
            ++ List.replicate (m - n) ERROR_MESSAGE)
        ∧ st.array_length = ((n - m : Nat) : Int)
        ∧ st.number_array.length = s.number_array.length := by
  intro m
  induction m with
  | zero =>
    intro n s hn _
    exact ⟨s, by simp [run_requests], by simpa using hn, rfl⟩
  | succ m ih =>
    intro n s hn hle
    cases n with
    | zero =>
      refine ⟨s, ?_, by simpa using hn, rfl⟩
      rw [run_requests_empty s (by omega)]
      simp
    | succ n =>
      obtain ⟨v, a1, hv, e1, l1, p1⟩ := handle_request_pos s (by omega) (by omega)
      obtain ⟨st, e2, l2, c2⟩ := ih n { number_array := a1, array_length := s.array_length - 1 }
        (by simp only []; omega) (by simp only []; omega)
      refine ⟨st, ?_, by rw [l2]; omega, by rw [c2]; exact l1⟩
      have ht : a1.take n = (s.number_array.take (n + 1)).tail := by
        apply shifted_take s.number_array a1 n
        intro j
        rw [p1 j, hn]
        by_cases hj : j + 1 < n + 1
        · rw [if_pos hj, if_pos (by omega)]
        · rw [if_neg hj, if_neg (by omega)]
      have hc : s.number_array.take (n + 1) = v :: a1.take n := by
        rw [ht]
        cases hs : s.number_array with
        | nil => rw [hs] at hv; simp at hv
        | cons x xs =>
          rw [hs] at hv
          simp only [List.getElem?_cons_zero, Option.some.injEq] at hv
          simp [hv]
      simp only [run_requests, e1, e2]
      rw [hc]
      simp

/-! ## Sanity checks of the rendering -/

theorem format_d_examples :
    format_d 0 = "0" ∧ format_d 7 = "7" ∧ format_d 10 = "10" ∧ format_d (-5) = "-5"
      ∧ format_d INT_MAX = "2147483647" ∧ format_d INT_MIN = "-2147483648" := by decide

/-! ## The claims -/

/-- C1: from the initial state, for every `N` with `N <= 10` the responses to the first `N`
trigger events are exactly `"Number: 1"`, ..., `"Number: N"`, in that order. -/
theorem C1_first_responses (N : Nat) (hN : N ≤ 10) :
    (run_requests N initial_state).map Prod.snd = .ok
      (List.take N ["Number: 1", "Number: 2", "Number: 3", "Number: 4", "Number: 5",
        "Number: 6", "Number: 7", "Number: 8", "Number: 9", "Number: 10"]) := by
  interval_cases N <;> decide

/-- Witness for C1 at `N = 3`. -/
theorem C1_first_responses_witness :
    (3 : Nat) ≤ 10 ∧ (run_requests 3 initial_state).map Prod.snd
      = .ok ["Number: 1", "Number: 2", "Number: 3"] :=
  ⟨by decide, C1_first_responses 3 (by decide)⟩

/-- C2: from the initial state the sequence is exhausted after exactly ten trigger events
(the counter is positive after fewer than ten and zero after ten), and for every `k >= 11`
the state before the `k`-th trigger is the state after the tenth, the `k`-th trigger answers
`"Error: Array is empty"` and leaves that state as it is. -/
theorem C2_exhausted_after_ten (k : Nat) (hk : 11 ≤ k) :
    run_requests 10 initial_state = .ok (exhausted_state, preloaded_responses)
      ∧ exhausted_state.array_length = 0
      ∧ (∀ j : Nat, j < 10 →
          ∃ st rs, run_requests j initial_state = .ok (st, rs) ∧ 0 < st.array_length)
      ∧ run_requests (k - 1) initial_state = .ok (exhausted_state,
          preloaded_responses ++ List.replicate (k - 11) "Error: Array is empty")
      ∧ handle_request exhausted_state = .ok
          { state := exhausted_state, response := "Error: Array is empty", accesses := [] }
      ∧ run_requests k initial_state = .ok (exhausted_state,
          preloaded_responses ++ List.replicate (k - 10) "Error: Array is empty") := by
  have h10 : run_requests 10 initial_state = .ok (exhausted_state, preloaded_responses) := by
    decide
  have hz : exhausted_state.array_length ≤ 0 := by decide
  have hrun : ∀ m : Nat, run_requests (10 + m) initial_state = .ok (exhausted_state,
      preloaded_responses ++ List.replicate m "Error: Array is empty") := by
    intro m
    rw [run_requests_add 10 m initial_state _ _ h10, run_requests_empty exhausted_state hz m]
    rfl
  refine ⟨h10, by decide, ?_, ?_, handle_request_empty exhausted_state hz, ?_⟩
  · intro j hj
    interval_cases j <;> exact ⟨_, _, rfl, by decide⟩
  · have hk1 : k - 1 = 10 + (k - 11) := by omega
    rw [hk1]
    exact hrun (k - 11)
  · have hk2 : k = 10 + (k - 10) := by omega
    rw [hk2]
    simpa using hrun (k - 10)

/-- Witness for C2 at `k = 13`. -/
theorem C2_exhausted_after_ten_witness :
    (11 : Nat) ≤ 13
      ∧ run_requests (13 - 1) initial_state = .ok (exhausted_state,
          preloaded_responses ++ List.replicate (13 - 11) "Error: Array is empty")
      ∧ handle_request exhausted_state = .ok
          { state := exhausted_state, response := "Error: Array is empty", accesses := [] }
      ∧ run_requests 13 initial_state = .ok (exhausted_state,
          preloaded_responses ++ List.replicate (13 - 10) "Error: Array is empty") :=
  ⟨by decide, (C2_exhausted_after_ten 13 (by decide)).2.2.2⟩

/-- C3: in a well-typed state whose counter `n` satisfies `0 < n <= 10`, `handle_request`
answers `"Number: "` followed by the decimal text of `number_array[0]`, the counter becomes
`n - 1`, and for every `i < n - 1` the new slot `i` holds what slot `i + 1` held, so the
logical sequence is the tail of the old one. -/
theorem C3_pop_front (s : State) (hwt : s.well_typed) (hpos : 0 < s.array_length)
    (hle : s.array_length ≤ 10) :
    ∃ v o, s.number_array[0]? = some v
      ∧ handle_request s = .ok o
      ∧ o.response = "Number: " ++ format_d v
      ∧ o.state.array_length = s.array_length - 1
      ∧ (∀ i : Nat, (i : Int) < s.array_length - 1 →
          ∃ x, o.state.number_array[i]? = some x ∧ s.number_array[i + 1]? = some x)
      ∧ o.state.number_array.take (s.array_length - 1).toNat
          = (s.number_array.take s.array_length.toNat).tail := by
  obtain ⟨hlen, hint⟩ := hwt
  unfold ARRAY_SIZE at hlen
  obtain ⟨v, a1, hv, e1, l1, p1⟩ := handle_request_pos s hpos (by omega)
  have hmem : v ∈ s.number_array := List.getElem?_mem hv
  refine ⟨v, _, hv, e1, snprintf_number_eq v (hint v hmem), rfl, ?_, ?_⟩
  · intro i hi
    have hi1 : i + 1 < s.number_array.length := by omega
    refine ⟨s.number_array.get ⟨i + 1, hi1⟩, ?_, by simp [List.getElem?_eq_getElem hi1]⟩
    simp only []
    rw [p1 i, if_pos (by omega)]
    simp [List.getElem?_eq_getElem hi1]
  · have hn : s.array_length.toNat = (s.array_length - 1).toNat + 1 := by omega
    rw [hn]
    apply shifted_take
    intro j
    rw [p1 j]
    by_cases hj : j + 1 < (s.array_length - 1).toNat + 1
    · rw [if_pos hj, if_pos (by omega)]
    · rw [if_neg hj, if_neg (by omega)]

/-- Witness for C3 at a state with three logical elements, the first negative. -/
theorem C3_pop_front_witness :
    (0 : Int) < 3 ∧ ∃ v o, ([-7, 4, 5, 0, 0, 0, 0, 0, 0, 9] : List Int)[0]? = some v
      ∧ handle_request { number_array := [-7, 4, 5, 0, 0, 0, 0, 0, 0, 9], array_length := 3 }
          = .ok o
      ∧ o.response = "Number: " ++ format_d v
      ∧ o.state.array_length = 3 - 1
      ∧ (∀ i : Nat, (i : Int) < 3 - 1 →
          ∃ x, o.state.number_array[i]? = some x
            ∧ ([-7, 4, 5, 0, 0, 0, 0, 0, 0, 9] : List Int)[i + 1]? = some x)
      ∧ o.state.number_array.take ((3 : Int) - 1).toNat
          = (([-7, 4, 5, 0, 0, 0, 0, 0, 0, 9] : List Int).take (3 : Int).toNat).tail :=
  ⟨by decide, C3_pop_front { number_array := [-7, 4, 5, 0, 0, 0, 0, 0, 0, 9], array_length := 3 }
    (by decide) (by decide) (by decide)⟩

/-- C4: in every state whose counter is zero, whatever the array holds, `handle_request`
answers exactly `"Error: Array is empty"`, touches no slot, and leaves the array and the
counter as they were. -/
theorem C4_empty_response (s : State) (h : s.array_length = 0) :
    handle_request s = .ok
      { state := s, response := "Error: Array is empty", accesses := [] } :=
  handle_request_empty s (by omega)

/-- Witness for C4 at a state with counter zero and arbitrary slots. -/
theorem C4_empty_response_witness :
    handle_request { number_array := [4, -1, 7, 7, 7, 7, 7, 7, 7, 7], array_length := 0 } = .ok
      { state := { number_array := [4, -1, 7, 7, 7, 7, 7, 7, 7, 7], array_length := 0 },
        response := "Error: Array is empty", accesses := [] } :=
  C4_empty_response { number_array := [4, -1, 7, 7, 7, 7, 7, 7, 7, 7], array_length := 0 } rfl

/-- C5: `0 <= array_length <= ARRAY_SIZE` holds in the initial state; from a state with
`ARRAY_SIZE` slots in which it holds, `handle_request` returns and it holds afterwards; and
it holds after any number `m` of trigger events, from such a state and from the initial
state. -/
theorem C5_length_invariant (s : State) (m : Nat) (hlen : s.number_array.length = ARRAY_SIZE)
    (hok : s.length_ok) :
    initial_state.length_ok
      ∧ (∃ o, handle_request s = .ok o ∧ o.state.length_ok
          ∧ o.state.number_array.length = ARRAY_SIZE)
      ∧ (∃ st rs, run_requests m s = .ok (st, rs) ∧ st.length_ok
          ∧ st.number_array.length = ARRAY_SIZE)
      ∧ (∃ st rs, run_requests m initial_state = .ok (st, rs) ∧ 0 ≤ st.array_length
          ∧ st.array_length ≤ 10) := by
  have main : ∀ t : State, t.number_array.length = ARRAY_SIZE → t.length_ok →
      ∃ st rs, run_requests m t = .ok (st, rs) ∧ st.length_ok
        ∧ st.number_array.length = ARRAY_SIZE := by
    intro t htl htk
    obtain ⟨h0, h1⟩ := htk
    obtain ⟨st, e, l, c⟩ := run_requests_spec m t.array_length.toNat t (by omega) (by omega)
    refine ⟨st, _, e, ⟨by omega, by omega⟩, by rw [c]; exact htl⟩
  refine ⟨by decide, ?_, main s hlen hok, ?_⟩
  · obtain ⟨h0, h1⟩ := hok
    by_cases hz : s.array_length ≤ 0
    · exact ⟨_, handle_request_empty s hz, ⟨h0, h1⟩, hlen⟩
    · obtain ⟨v, a1, _, e1, l1, _⟩ := handle_request_pos s (by omega) (by omega)
      exact ⟨_, e1, ⟨by simp only []; omega, by simp only []; omega⟩, by rw [← hlen]; exact l1⟩
  · obtain ⟨st, rs, e, ⟨h0, h1⟩, _⟩ := main initial_state (by decide) (by decide)
    exact ⟨st, rs, e, h0, by simpa [ARRAY_SIZE] using h1⟩

/-- Witness for C5 at the initial state and 25 trigger events. -/
theorem C5_length_invariant_witness :
    initial_state.number_array.length = ARRAY_SIZE ∧ initial_state.length_ok
      ∧ ∃ st rs, run_requests 25 initial_state = .ok (st, rs) ∧ 0 ≤ st.array_length
          ∧ st.array_length ≤ 10 :=
  ⟨by decide, by decide,
    (C5_length_invariant initial_state 25 (by decide) (by decide)).2.2.2⟩

/-- C6: whenever `handle_request` returns, the counter has dropped by exactly one if the
response is a `"Number: ..."` response (which happens exactly when the counter was positive),
it is unchanged if it was zero, and it has not grown; from a state with `ARRAY_SIZE` slots
and a counter within bounds the call does return; and once the counter is zero it stays zero
over any number of further calls. -/
theorem C6_length_step (s : State) :
    (∀ o, handle_request s = .ok o →
        (is_number_response o.response = true → o.state.array_length = s.array_length - 1)
          ∧ (is_number_response o.response = true ↔ 0 < s.array_length)
          ∧ (s.array_length = 0 → o.state.array_length = s.array_length)
          ∧ o.state.array_length ≤ s.array_length)
      ∧ (s.number_array.length = ARRAY_SIZE → s.length_ok → ∃ o, handle_request s = .ok o)
      ∧ (s.array_length = 0 → ∀ m : Nat, ∃ st rs, run_requests m s = .ok (st, rs)
          ∧ st.array_length = 0) := by
  refine ⟨?_, handle_request_total s, ?_⟩
  · intro o h
    by_cases hpos : 0 < s.array_length
    · obtain ⟨hl, v, hv⟩ := handle_request_ok_pos s o hpos h
      have hn : is_number_response o.response = true := by
        rw [hv]; exact is_number_response_snprintf v
      exact ⟨fun _ => hl, ⟨fun _ => hpos, fun _ => hn⟩, fun hz => by omega, by omega⟩
    · rw [handle_request_empty s (by omega)] at h
      simp only [Except.ok.injEq] at h
      subst h
      have hn : is_number_response ERROR_MESSAGE = false := is_number_response_error
      refine ⟨fun hc => ?_, ⟨fun hc => ?_, fun hc => absurd hc hpos⟩, fun _ => rfl, le_refl _⟩
      · simp only [] at hc
        rw [hn] at hc
        exact absurd hc (by decide)
      · simp only [] at hc
        rw [hn] at hc
        exact absurd hc (by decide)
  · intro hz m
    exact ⟨s, _, run_requests_empty s (by omega) m, hz⟩

/-- Witness for C6 at the initial state. -/
theorem C6_length_step_witness :
    (∃ o, handle_request initial_state = .ok o)
      ∧ ∀ o, handle_request initial_state = .ok o →
          (is_number_response o.response = true
            → o.state.array_length = initial_state.array_length - 1)
          ∧ (is_number_response o.response = true ↔ 0 < initial_state.array_length)
          ∧ (initial_state.array_length = 0
            → o.state.array_length = initial_state.array_length)
          ∧ o.state.array_length ≤ initial_state.array_length :=
  ⟨(C6_length_step initial_state).2.1 (by decide) (by decide), (C6_length_step initial_state).1⟩

/-- C7: one turn of the polling loop.  When the read returns a positive count the turn is
exactly one call of `handle_request` (its state, and its response as the only text sent);
two reads with positive counts give the same result whatever their counts and bytes; in a
state with `ARRAY_SIZE` slots and a counter within bounds exactly one text is sent; when the
read returns zero or a negative count nothing is sent and the state is unchanged. -/
theorem C7_polling_step (s : State) (r1 r2 r0 : ReadResult) (h1 : 0 < r1.len)
    (h2 : 0 < r2.len) (h0 : r0.len ≤ 0) :
    echo_task_iteration s r1
        = (match handle_request s with
          | .error e => .error e
          | .ok o => .ok (o.state, [o.response]))
      ∧ echo_task_iteration s r1 = echo_task_iteration s r2
      ∧ echo_task_iteration s r0 = .ok (s, [])
      ∧ (s.number_array.length = ARRAY_SIZE → s.length_ok →
          ∃ o, handle_request s = .ok o
            ∧ echo_task_iteration s r1 = .ok (o.state, [o.response])) := by
  have e1 : echo_task_iteration s r1
      = (match handle_request s with
        | .error e => .error e
        | .ok o => .ok (o.state, [o.response])) := by
    unfold echo_task_iteration
    rw [if_pos h1]
  have e2 : echo_task_iteration s r2
      = (match handle_request s with
        | .error e => .error e
        | .ok o => .ok (o.state, [o.response])) := by
    unfold echo_task_iteration
    rw [if_pos h2]
  refine ⟨e1, by rw [e1, e2], ?_, ?_⟩
  · unfold echo_task_iteration
    rw [if_neg (by omega)]
  · intro hlen hok
    obtain ⟨o, ho⟩ := handle_request_total s hlen hok
    refine ⟨o, ho, ?_⟩
    rw [e1, ho]

/-- Witness for C7 at the initial state with reads of 1 byte, 5 bytes and a failed read. -/
theorem C7_polling_step_witness :
    (0 : Int) < 1 ∧ (0 : Int) < 5 ∧ (-1 : Int) ≤ 0
      ∧ echo_task_iteration initial_state { len := 1, data := [65] }
          = echo_task_iteration initial_state { len := 5, data := [104, 101, 108, 108, 111] }
      ∧ echo_task_iteration initial_state { len := -1, data := [] } = .ok (initial_state, []) :=
  ⟨by decide, by decide, by decide,
    (C7_polling_step initial_state { len := 1, data := [65] }
      { len := 5, data := [104, 101, 108, 108, 111] } { len := -1, data := [] }
      (by decide) (by decide) (by decide)).2.1,
    (C7_polling_step initial_state { len := 1, data := [65] }
      { len := 5, data := [104, 101, 108, 108, 111] } { len := -1, data := [] }
      (by decide) (by decide) (by decide)).2.2.1⟩

/-- C8 as stated fails: after the first successful pop nine elements remain, not
`11 - 1 = 10`. -/
theorem C8_counterexample :
    (run_requests 1 initial_state).map (fun p => p.1.array_length) = .ok 9
      ∧ (run_requests 1 initial_state).map (fun p => p.1.array_length) ≠ .ok (11 - 1) := by
  decide

/-- C8, amended: from the initial state, for `1 <= k <= 10` the first `k` responses are the
`"Number: ..."` responses for the first `k` preloaded values in order, the number of
elements just before the `k`-th pop is `11 - k`, and the number remaining after it is
`10 - k`. -/
theorem C8_remaining_after_pop (k : Nat) (h1 : 1 ≤ k) (h10 : k ≤ 10) :
    (run_requests k initial_state).map Prod.snd = .ok
        (List.take k ["Number: 1", "Number: 2", "Number: 3", "Number: 4", "Number: 5",
          "Number: 6", "Number: 7", "Number: 8", "Number: 9", "Number: 10"])
      ∧ (run_requests (k - 1) initial_state).map (fun p => p.1.array_length)
          = .ok (11 - (k : Int))
      ∧ (run_requests k initial_state).map (fun p => p.1.array_length)
          = .ok (10 - (k : Int)) := by
  interval_cases k <;> decide

/-- Witness for the amended C8 at `k = 4`. -/
theorem C8_remaining_after_pop_witness :
    (1 : Nat) ≤ 4 ∧ (4 : Nat) ≤ 10
      ∧ (run_requests 4 initial_state).map (fun p => p.1.array_length) = .ok 6 :=
  ⟨by decide, by decide, (C8_remaining_after_pop 4 (by decide) (by decide)).2.2⟩

/-- C9: from a well-typed state with array `a` and counter `n`, `0 <= n <= 10`, the
responses to `m` calls of `handle_request` in a row are `"Number: a[0]"`, ...,
`"Number: a[min(m,n)-1]"` followed by `m - n` (zero if `m <= n`) copies of
`"Error: Array is empty"`. -/
theorem C9_fifo_drain (s : State) (m : Nat) (hwt : s.well_typed) (hok : s.length_ok) :
    ∃ st, run_requests m s = .ok (st,
      (s.number_array.take (min m s.array_length.toNat)).map
          (fun v => "Number: " ++ format_d v)
        ++ List.replicate (m - s.array_length.toNat) "Error: Array is empty") := by
  obtain ⟨hlen, hint⟩ := hwt
  obtain ⟨h0, h1⟩ := hok
  obtain ⟨st, e, _, _⟩ := run_requests_spec m s.array_length.toNat s (by omega) (by omega)
  refine ⟨st, ?_⟩
  rw [e, List.take_take]
  have hmap : (s.number_array.take (min m s.array_length.toNat)).map (snprintf_number BUF_SIZE)
      = (s.number_array.take (min m s.array_length.toNat)).map
          (fun v => "Number: " ++ format_d v) := by
    apply List.map_congr_left
    intro v hv
    exact snprintf_number_eq v (hint v (List.mem_of_mem_take hv))
  rw [hmap]
  rfl

/-- Witness for C9 at a state with three logical elements and five calls. -/
theorem C9_fifo_drain_witness :
    ∃ st, run_requests 5 (State.mk [-3, 8, 2147483647, 0, 0, 0, 0, 0, 0, 0] 3) = .ok (st,
      ["Number: -3", "Number: 8", "Number: 2147483647",
        "Error: Array is empty", "Error: Array is empty"]) :=
  C9_fifo_drain (State.mk [-3, 8, 2147483647, 0, 0, 0, 0, 0, 0, 0] 3) 5 (by decide) (by decide)

/-- C10: in a state with `ARRAY_SIZE` slots and `0 <= array_length <= ARRAY_SIZE`,
`handle_request` returns without an out-of-range access; it reads slot 0 and then, for
`i = 1, ..., array_length - 1` in turn, reads slot `i` and writes slot `i - 1` (nothing at
all when the counter is zero); every index used lies in `0..9`; every write uses an index
below `array_length - 1`; the array still has `ARRAY_SIZE` slots; and every slot at an index
`>= array_length - 1`, the old last slot among them, holds the value it held before. -/
theorem C10_index_safety (s : State) (hlen : s.number_array.length = ARRAY_SIZE)
    (hok : s.length_ok) :
    ∃ o, handle_request s = .ok o
      ∧ o.accesses = (if 0 < s.array_length
          then Access.read 0 :: shift_accesses (s.array_length - 1).toNat 1 else [])
      ∧ (∀ acc ∈ o.accesses, 0 ≤ acc.index ∧ acc.index < 10)
      ∧ (∀ acc ∈ o.accesses, acc.is_write = true → acc.index < s.array_length - 1)
      ∧ o.state.number_array.length = 10
      ∧ (∀ j : Nat, s.array_length - 1 ≤ (j : Int) → j < 10 →
          ∃ x, o.state.number_array[j]? = some x ∧ s.number_array[j]? = some x) := by
  obtain ⟨h0, h1⟩ := hok
  unfold ARRAY_SIZE at hlen h1
  have hsome : ∀ j : Nat, j < 10 →
      ∃ x, s.number_array[j]? = some x ∧ s.number_array[j]? = some x := by
    intro j hj
    have hj1 : j < s.number_array.length := by omega
    exact ⟨s.number_array.get ⟨j, hj1⟩, by simp [List.getElem?_eq_getElem hj1],
      by simp [List.getElem?_eq_getElem hj1]⟩
  by_cases hz : s.array_length ≤ 0
  · refine ⟨_, handle_request_empty s hz, ?_, ?_, ?_, hlen, fun j _ hj => hsome j hj⟩
    · rw [if_neg (by omega)]
    · intro acc hacc
      simp at hacc
    · intro acc hacc
      simp at hacc
  · obtain ⟨v, a1, _, e1, l1, p1⟩ := handle_request_pos s (by omega) (by omega)
    refine ⟨_, e1, ?_, ?_, ?_, by simp only []; omega, ?_⟩
    · rw [if_pos (by omega)]
    · intro acc hacc
      simp only [List.mem_cons] at hacc
      rcases hacc with h | h
      · subst h
        simp [Access.index]
      · obtain ⟨b1, b2, _⟩ := shift_accesses_index _ _ acc h
        constructor <;> omega
    · intro acc hacc hw
      simp only [List.mem_cons] at hacc
      rcases hacc with h | h
      · subst h
        simp [Access.is_write] at hw
      · obtain ⟨_, _, b3⟩ := shift_accesses_index _ _ acc h
        have := b3 hw
        omega
    · intro j hj hj10
      obtain ⟨x, hx, _⟩ := hsome j hj10
      refine ⟨x, ?_, hx⟩
      simp only []
      rw [p1 j, if_neg (by omega)]
      exact hx

/-- Witness for C10 at a state with four logical elements. -/
theorem C10_index_safety_witness :
    ∃ o, handle_request { number_array := [5, 6, 7, 8, 0, 0, 0, 0, 0, 0], array_length := 4 }
        = .ok o
      ∧ o.accesses = [Access.read 0, Access.read 1, Access.write 0, Access.read 2,
          Access.write 1, Access.read 3, Access.write 2]
      ∧ o.state.number_array = [6, 7, 8, 8, 0, 0, 0, 0, 0, 0] := by
  obtain ⟨o, h, ha, _⟩ := C10_index_safety
    { number_array := [5, 6, 7, 8, 0, 0, 0, 0, 0, 0], array_length := 4 } (by decide) (by decide)
  refine ⟨o, h, ha, ?_⟩
  have hd : handle_request { number_array := [5, 6, 7, 8, 0, 0, 0, 0, 0, 0], array_length := 4 }
      = .ok { state := { number_array := [6, 7, 8, 8, 0, 0, 0, 0, 0, 0], array_length := 3 },
              response := "Number: 5",
              accesses := [Access.read 0, Access.read 1, Access.write 0, Access.read 2,
                Access.write 1, Access.read 3, Access.write 2] } := by decide
  rw [hd] at h
  simp only [Except.ok.injEq] at h
  rw [← h]

end UartSerial
